import Mathlib

/-!
# Verification of the Arkanoid simulation core

Shallow embedding of `arkanoid.py` (module `arkanoid`) and proofs about it.

Modelling conventions:
* Python floats are modelled as `ℚ`; the game's arithmetic on them is
  `+ - * / min max abs` together with `//` (floor division) and the
  implicit float→int truncation done by `pygame.Rect`, all exact on `ℚ`.
* The transcendental operations `math.sin`, `math.cos`, `math.sqrt`,
  `math.pi` appearing in the paddle-bounce code path cannot land in `ℚ`;
  the game embedding abstracts them as a record `Trig` of rational-valued
  functions, and the metric facts about the real functions (claim C5) are
  proved separately over `ℝ`.
* The unseeded global random source is modelled by an explicit oracle
  (`Oracle`): ball launch directions are drawn from a stream indexed by a
  cursor `rk` carried in the game state, and the per-cell draws of the
  level generator are indexed by a generation-call counter `gk` plus the
  cell's row/column.
* Particles (`Particle`, `_create_particles`) are write-only cosmetic
  state: no simulation decision ever reads them, so they are omitted from
  the game record.
* Pygame surfaces, fonts, drawing and event plumbing are I/O and are not
  modelled; a frame's input is a record `Input` (mouse x, click flag,
  escape flag, `dt`).
-/

namespace Arkanoid

/-- Python/C float→int truncation toward zero, as performed by
`pygame.Rect` on float coordinates. -/
def pyTrunc (q : ℚ) : ℤ := if q < 0 then -⌊-q⌋ else ⌊q⌋

/-- `pygame.Rect`: stores integer left/top/width/height, truncating
float arguments toward zero. -/
structure PyRect where
  left : ℤ
  top : ℤ
  w : ℤ
  h : ℤ
deriving DecidableEq

/-- Build a `pygame.Rect` from float (here rational) arguments. -/
def mkRect (x y w h : ℚ) : PyRect :=
  ⟨pyTrunc x, pyTrunc y, pyTrunc w, pyTrunc h⟩

/-- `pygame.Rect.colliderect`: strict-overlap test
(`A.x < B.x + B.w and A.y < B.y + B.h and A.x + A.w > B.x and
A.y + A.h > B.y`); rectangles that merely share an edge do not collide.
All rectangles built by this game have positive width and height. -/
def PyRect.colliderect (a b : PyRect) : Bool :=
  decide (a.left < b.left + b.w) && decide (a.top < b.top + b.h) &&
  decide (a.left + a.w > b.left) && decide (a.top + a.h > b.top)

/-- `Vector2D` (class `Vector2D`, fields `x`, `y`). -/
structure Vec2 where
  x : ℚ
  y : ℚ
deriving DecidableEq

/-- `Vector2D.__add__`. -/
def Vec2.add (a b : Vec2) : Vec2 := ⟨a.x + b.x, a.y + b.y⟩

/-- `Vector2D.__mul__` (scalar multiplication). -/
def Vec2.smul (v : Vec2) (k : ℚ) : Vec2 := ⟨v.x * k, v.y * k⟩

/-- `Vector2D.reflect`: `dot = 2*(x*nx + y*ny)`;
result `(x - dot*nx, y - dot*ny)`. -/
def Vec2.reflect (v n : Vec2) : Vec2 :=
  let dot := 2 * (v.x * n.x + v.y * n.y)
  ⟨v.x - dot * n.x, v.y - dot * n.y⟩

/-- Abstraction of the transcendental primitives (`math.sin`, `math.cos`,
`math.sqrt`, `math.pi`) used by the paddle-bounce code path: `ℚ` cannot
represent their values, so the game embedding is parametric in them.  No
claim about the game state machine depends on their values. -/
structure Trig where
  sin : ℚ → ℚ
  cos : ℚ → ℚ
  sqrt : ℚ → ℚ
  pi : ℚ

/-- `Vector2D.magnitude` = `sqrt(x**2 + y**2)`, with the abstracted
square root. -/
def Vec2.magnitudeQ (T : Trig) (v : Vec2) : ℚ := T.sqrt (v.x ^ 2 + v.y ^ 2)

/-- `Vector2D.normalize`: divides by the magnitude when it is positive,
otherwise returns the vector unchanged. -/
def Vec2.normalizeQ (T : Trig) (v : Vec2) : Vec2 :=
  let m := T.sqrt (v.x ^ 2 + v.y ^ 2)
  if m > 0 then ⟨v.x / m, v.y / m⟩ else v

/-- `PowerUpType` enumeration. -/
inductive PowerUpType where
  | EXPAND_PADDLE
  | MULTI_BALL
  | SLOW_BALL
  | LASER
  | STICKY_PADDLE
  | EXTRA_LIFE
deriving DecidableEq

/-- `GameState` enumeration. -/
inductive GameState where
  | MENU
  | PLAYING
  | PAUSED
  | GAME_OVER
  | VICTORY
deriving DecidableEq

/-- `Ball` entity (`pos`, `vel`, `radius`, `trail`, `speed_multiplier`). -/
structure Ball where
  pos : Vec2
  vel : Vec2
  radius : ℚ
  trail : List (ℚ × ℚ)
  speed_multiplier : ℚ
deriving DecidableEq

/-- `Ball.__init__(x, y)`: velocity x-component is
`random.choice([-200, 200])`, modelled by the explicit draw `negDir`
(`true` ↦ `-200`); velocity y-component is `-300`; radius 8; empty
trail; speed multiplier 1. -/
def Ball.init (x y : ℚ) (negDir : Bool) : Ball :=
  ⟨⟨x, y⟩, ⟨if negDir then -200 else 200, -300⟩, 8, [], 1⟩

/-- Python `l[-10:]`: the last (at most) 10 elements of a list. -/
def lastTen {α : Type} (l : List α) : List α := l.drop (l.length - 10)

/-- `Ball.update(dt, width, height)`.  Position advances by
`vel * (dt * speed_multiplier)`; the new position is appended to the
trail (keeping the last 10 entries).  The three boundary handlers are
stored in a dict *keyed by the boolean conditions*
(`{cond1: h1, cond2: h2, cond3: h3}`), so a later entry with the same
truth value overwrites an earlier one; the comprehension then runs the
handler stored under the key `True`, if any.  Hence at most one handler
runs per call: that of the *last* true condition in source order
(left wall, right wall, top wall).  Each handler forces the sign of one
velocity component using `abs` of its current value.  Returns the updated
ball and the ball-lost flag `pos.y > height`. -/
def Ball.update (b : Ball) (dt width height : ℚ) : Ball × Bool :=
  let movement := b.vel.smul (dt * b.speed_multiplier)
  let pos := b.pos.add movement
  let trail := lastTen (b.trail ++ [(pos.x, pos.y)])
  let vel :=
    if pos.y - b.radius ≤ 0 then (⟨b.vel.x, |b.vel.y|⟩ : Vec2)
    else if pos.x + b.radius ≥ width then ⟨-|b.vel.x|, b.vel.y⟩
    else if pos.x - b.radius ≤ 0 then ⟨|b.vel.x|, b.vel.y⟩
    else b.vel
  (⟨pos, vel, b.radius, trail, b.speed_multiplier⟩, decide (pos.y > height))

/-- `Paddle` entity. -/
structure Paddle where
  x : ℚ
  y : ℚ
  width : ℚ
  height : ℚ
  base_width : ℚ
  vel : ℚ
  sticky : Bool
deriving DecidableEq

/-- `Paddle.__init__(x, y)`: `base_width = 100`, `width = base_width`,
`height = 20`, `vel = 0`, `sticky = False`. -/
def Paddle.init (x y : ℚ) : Paddle := ⟨x, y, 100, 20, 100, 0, false⟩

/-- `Paddle.update(dt, mouse_x, width)`:
`target_x = mouse_x - self.width // 2` (float floor division),
`vel = (target_x - x) * 10`, `x += vel * dt`, then
`x = max(0, min(x, width - self.width))`. -/
def Paddle.update (p : Paddle) (dt mouse_x width : ℚ) : Paddle :=
  let target_x := mouse_x - (⌊p.width / 2⌋ : ℤ)
  let distance := target_x - p.x
  let vel := distance * 10
  let x := p.x + vel * dt
  let x := max 0 (min x (width - p.width))
  { p with x := x, vel := vel }

/-- `Brick` entity. -/
structure Brick where
  x : ℚ
  y : ℚ
  width : ℚ
  height : ℚ
  health : ℤ
  max_health : ℤ
  points : ℤ
  powerup : Option PowerUpType
deriving DecidableEq

/-- `Brick.__init__(x, y, health)`: size 75×25,
`max_health = health`, `points = health * 100`.  The random power-up
assignment (`PowerUpType(random.randint(1, 6)) if random.random() < 0.1
else None`) is modelled by passing the drawn result explicitly. -/
def Brick.init (x y : ℚ) (health : ℤ) (powerup : Option PowerUpType) : Brick :=
  ⟨x, y, 75, 25, health, health, health * 100, powerup⟩

/-- `Brick.hit()`: decrement `health`; the returned flag
(`health <= 0` after the decrement) reports destruction. -/
def Brick.hit (b : Brick) : Brick × Bool :=
  let b' := { b with health := b.health - 1 }
  (b', decide (b'.health ≤ 0))

/-- `PowerUp` entity: falls with fixed velocity `(0, 150)`, size 20,
`active = True` (flag never consumed by the simulation). -/
structure PowerUp where
  pos : Vec2
  type : PowerUpType
  vel : Vec2
  size : ℚ
  active : Bool
deriving DecidableEq

/-- `PowerUp.__init__(x, y, powerup_type)`. -/
def PowerUp.init (x y : ℚ) (t : PowerUpType) : PowerUp :=
  ⟨⟨x, y⟩, t, ⟨0, 150⟩, 20, true⟩

/-- `PowerUp.update(dt, height)`: advance by `vel * dt`; returns the
updated power-up and the bottom-exit flag `pos.y > height`. -/
def PowerUp.update (p : PowerUp) (dt height : ℚ) : PowerUp × Bool :=
  let pos := p.pos.add (p.vel.smul dt)
  ({ p with pos := pos }, decide (pos.y > height))

/-- Oracle for the unseeded global random source.  `dir k` is the `k`-th
launch-direction draw (`random.choice([-200, 200])`, `true` ↦ `-200`);
`keep c r col` is the brick-placement coin (`random.random() > 0.1`) of
cell `(r, col)` in the `c`-th call to `_generate_level`; `brickPu c r col`
is the combined power-up draw of `Brick.__init__` for that cell. -/
structure Oracle where
  dir : ℕ → Bool
  keep : ℕ → ℕ → ℕ → Bool
  brickPu : ℕ → ℕ → ℕ → Option PowerUpType

/-- The `ArkanoidGame` state: every `__init__` field read by the
simulation (screen/clock/fonts are I/O; `particles` is write-only
cosmetic state; `state_handlers` is the fixed dispatch table realised by
`step`).  `rk` and `gk` are the randomness cursors described on
`Oracle`. -/
structure Game where
  width : ℚ
  height : ℚ
  state : GameState
  score : ℤ
  lives : ℤ
  level : ℤ
  paddle : Paddle
  balls : List Ball
  bricks : List Brick
  powerups : List PowerUp
  rk : ℕ
  gk : ℕ
deriving DecidableEq

/-- `ArkanoidGame._generate_level(level)`:
`rows = min(5 + level, 10)`, `cols = 10`, bricks at
`(x*78 + 10, y*30 + 60)` with health `min(rows - y, 5)` for
`y in range(rows)`, `x in range(cols)`, each cell kept when its coin
`random.random() > 0.1` (oracle `keep`) comes up true. -/
def generate_level (o : Oracle) (gk : ℕ) (level : ℤ) : List Brick :=
  let rows : ℤ := min (5 + level) 10
  let cols : ℕ := 10
  (List.range rows.toNat).flatMap fun y =>
    (List.range cols).filterMap fun x =>
      if o.keep gk y x then
        some (Brick.init (x * 78 + 10) (y * 30 + 60) (min (rows - y) 5)
          (o.brickPu gk y x))
      else none

/-- `Paddle.get_collision_normal(ball_x)` with the abstracted trig:
`relative_pos = (ball_x - (x + width/2)) / (width/2)` clamped to
`[-1, 1]`, `angle = relative_pos * pi / 3`, normal
`(sin(angle), -cos(angle))`. -/
def Paddle.get_collision_normalQ (T : Trig) (p : Paddle) (ball_x : ℚ) : Vec2 :=
  let relative_pos := (ball_x - (p.x + p.width / 2)) / (p.width / 2)
  let relative_pos := max (-1) (min 1 relative_pos)
  let angle := relative_pos * T.pi / 3
  ⟨T.sin angle, -(T.cos angle)⟩

/-- The brick part of `ArkanoidGame._handle_collision`: scan the brick
list in order against the fixed `ball_rect`; on the first overlap, call
`hit()` (if destroyed: remove the brick, score its `points`, spawn its
attached power-up at `(x + width // 2, y + height // 2)`), bounce the
ball by comparing `|dx|` with `|dy|` against the brick centre, and
`break`.  Returns the remaining bricks, the ball, the score delta and
the spawned power-ups. -/
def brickScan (ballRect : PyRect) (b : Ball) :
    List Brick → List Brick × Ball × ℤ × List PowerUp
  | [] => ([], b, 0, [])
  | brick :: rest =>
    let brickRect := mkRect brick.x brick.y brick.width brick.height
    if brickRect.colliderect ballRect then
      let hitRes := brick.hit
      let bricks' := if hitRes.2 then rest else hitRes.1 :: rest
      let scoreDelta : ℤ := if hitRes.2 then brick.points else 0
      let pus : List PowerUp :=
        if hitRes.2 then
          match brick.powerup with
          | some t => [PowerUp.init (brick.x + (⌊brick.width / 2⌋ : ℤ))
              (brick.y + (⌊brick.height / 2⌋ : ℤ)) t]
          | none => []
        else []
      let brick_center_x := brick.x + (⌊brick.width / 2⌋ : ℤ)
      let brick_center_y := brick.y + (⌊brick.height / 2⌋ : ℤ)
      let diff_x := b.pos.x - brick_center_x
      let diff_y := b.pos.y - brick_center_y
      let vel : Vec2 :=
        if |diff_x| > |diff_y| then ⟨-b.vel.x, b.vel.y⟩ else ⟨b.vel.x, -b.vel.y⟩
      (bricks', { b with vel := vel }, scoreDelta, pus)
    else
      let res := brickScan ballRect b rest
      (brick :: res.1, res.2)

/-- `ArkanoidGame._handle_collision(ball, dt)`: `ball_rect` is computed
once from the incoming ball position; the paddle bounce (gated by AABB
overlap and `vel.y > 0`) reflects about the impact normal, renormalises
and rescales, snaps the ball to the paddle top and adds `0.3` of the
paddle velocity to `vel.x`; then the brick scan runs with the *same*
`ball_rect`.  Particle bursts are cosmetic and omitted. -/
def handle_collision (T : Trig) (g : Game) (b : Ball) : Game × Ball :=
  let paddleRect := mkRect g.paddle.x g.paddle.y g.paddle.width g.paddle.height
  let ballRect := mkRect (b.pos.x - b.radius) (b.pos.y - b.radius)
    (b.radius * 2) (b.radius * 2)
  let b :=
    if paddleRect.colliderect ballRect ∧ b.vel.y > 0 then
      let normal := g.paddle.get_collision_normalQ T b.pos.x
      let vel := b.vel.reflect normal
      let vel := (vel.normalizeQ T).smul (vel.magnitudeQ T)
      let vel : Vec2 := ⟨vel.x + g.paddle.vel * 0.3, vel.y⟩
      { b with vel := vel, pos := ⟨b.pos.x, g.paddle.y - b.radius⟩ }
    else b
  let res := brickScan ballRect b g.bricks
  let g' : Game :=
    { g with bricks := res.1, score := g.score + res.2.2.1,
             powerups := g.powerups ++ res.2.2.2 }
  (g', res.2.1)

/-- `ArkanoidGame._apply_powerup(powerup_type)`: the effect table, then
the unconditional `score += 50`.  `MULTI_BALL` spawns two balls at the
first ball's position (no-op when no ball exists), consuming two
launch-direction draws. -/
def apply_powerup (o : Oracle) (t : PowerUpType) (g : Game) : Game :=
  let g' :=
    match t with
    | .EXPAND_PADDLE =>
        { g with paddle := { g.paddle with width := min (g.paddle.width + 30) 200 } }
    | .MULTI_BALL =>
        match g.balls with
        | [] => g
        | b0 :: _ =>
            { g with
              balls := g.balls ++
                [Ball.init b0.pos.x b0.pos.y (o.dir g.rk),
                 Ball.init b0.pos.x b0.pos.y (o.dir (g.rk + 1))],
              rk := g.rk + 2 }
    | .SLOW_BALL =>
        { g with balls := g.balls.map fun b : Ball => { b with speed_multiplier := 0.7 } }
    | .LASER => g
    | .STICKY_PADDLE => { g with paddle := { g.paddle with sticky := true } }
    | .EXTRA_LIFE => { g with lives := g.lives + 1 }
  { g' with score := g'.score + 50 }

/-- The loop body of `ArkanoidGame._handle_powerups`: iterate over a
snapshot of the power-up list; each power-up first falls
(`powerup.update(dt, height)`), a bottom exit removes it with no further
effect (`continue`); otherwise, if its post-move bounding box overlaps
the paddle rectangle computed before the loop, the effect is applied and
it is removed; otherwise it survives (with its moved position).  Returns
the updated game and the surviving power-ups. -/
def powerupsLoop (o : Oracle) (dt : ℚ) (paddleRect : PyRect) (height : ℚ) :
    Game → List PowerUp → Game × List PowerUp
  | g, [] => (g, [])
  | g, p :: rest =>
    let up := p.update dt height
    if up.2 then powerupsLoop o dt paddleRect height g rest
    else
      let p' := up.1
      let powerupRect := mkRect (p'.pos.x - p'.size) (p'.pos.y - p'.size)
        (p'.size * 2) (p'.size * 2)
      if paddleRect.colliderect powerupRect then
        powerupsLoop o dt paddleRect height (apply_powerup o p'.type g) rest
      else
        let res := powerupsLoop o dt paddleRect height g rest
        (res.1, p' :: res.2)

/-- `ArkanoidGame._handle_powerups(dt)`: the paddle rectangle is computed
once before the loop (so a mid-loop paddle expansion does not affect
later overlap tests in the same frame). -/
def handle_powerups (o : Oracle) (dt : ℚ) (g : Game) : Game :=
  let paddleRect := mkRect g.paddle.x g.paddle.y g.paddle.width g.paddle.height
  let res := powerupsLoop o dt paddleRect g.height g g.powerups
  { res.1 with powerups := res.2 }

/-- The ball-update loop of `ArkanoidGame._handle_playing`: iterate over
a snapshot of the ball list (`self.balls[:]`), `acc` being the survivors
kept so far, so that the live list at the `if not self.balls` check is
`acc ++ rest`.  A lost ball is dropped; if the live list is then empty,
`lives` is decremented and either one fresh ball is spawned at
`(width // 2, height - 80)` (when `lives > 0`) or the state becomes
`GAME_OVER`.  A surviving ball goes through `_handle_collision`. -/
def ballsLoop (T : Trig) (o : Oracle) (dt : ℚ) :
    Game → List Ball → List Ball → Game
  | g, acc, [] => { g with balls := acc }
  | g, acc, b :: rest =>
    let ub := b.update dt g.width g.height
    if ub.2 then
      if acc ++ rest = [] then
        let lives' := g.lives - 1
        if lives' > 0 then
          ballsLoop T o dt { g with lives := lives', rk := g.rk + 1 }
            [Ball.init (⌊g.width / 2⌋ : ℤ) (g.height - 80) (o.dir g.rk)] rest
        else
          ballsLoop T o dt { g with lives := lives', state := .GAME_OVER } acc rest
      else ballsLoop T o dt g acc rest
    else
      let hc := handle_collision T g ub.1
      ballsLoop T o dt hc.1 (acc ++ [hc.2]) rest

/-- The victory / level-clear check at the end of
`ArkanoidGame._handle_playing`: when no brick remains, `level` is
incremented *first*; if the incremented level exceeds 5 the state
becomes `VICTORY` (bricks and balls untouched), otherwise the new level
is generated and the ball list is replaced by one fresh ball. -/
def check_clear (o : Oracle) (g : Game) : Game :=
  if g.bricks = [] then
    let level' := g.level + 1
    if level' > 5 then { g with level := level', state := .VICTORY }
    else
      { g with level := level',
               bricks := generate_level o g.gk level',
               balls := [Ball.init (⌊g.width / 2⌋ : ℤ) (g.height - 80) (o.dir g.rk)],
               rk := g.rk + 1, gk := g.gk + 1 }
  else g

/-- One frame's input snapshot: pointer x position, whether the event
list contains a `MOUSEBUTTONDOWN`, whether it contains an escape
`KEYDOWN`, and the elapsed time `dt`. -/
structure Input where
  mouse_x : ℚ
  click : Bool
  esc : Bool
  dt : ℚ

/-- `ArkanoidGame._handle_playing(dt, events)`: paddle update, ball loop
(update / loss handling / collision), power-up handling, the
clear-check, and finally the pause-key check (drawing omitted). -/
def handle_playing (T : Trig) (o : Oracle) (inp : Input) (g : Game) : Game :=
  let g := { g with paddle := g.paddle.update inp.dt inp.mouse_x g.width }
  let g := ballsLoop T o inp.dt g [] g.balls
  let g := handle_powerups o inp.dt g
  let g := check_clear o g
  if inp.esc then { g with state := .PAUSED } else g

/-- `ArkanoidGame.__init__(width, height)` (the simulation-relevant
fields): state `MENU`, score 0, lives 3, level 1, paddle at
`(width // 2 - 50, height - 50)`, one ball at `(width // 2, height - 80)`,
bricks from `_generate_level(1)`, no power-ups.  `rk`/`gk` are the
randomness cursors at which this construction draws. -/
def Game.init (o : Oracle) (width height : ℚ) (rk gk : ℕ) : Game :=
  { width := width, height := height, state := .MENU, score := 0,
    lives := 3, level := 1,
    paddle := Paddle.init ((⌊width / 2⌋ : ℤ) - 50) (height - 50),
    balls := [Ball.init (⌊width / 2⌋ : ℤ) (height - 80) (o.dir rk)],
    bricks := generate_level o gk 1,
    powerups := [], rk := rk + 1, gk := gk + 1 }

/-- One tick of `ArkanoidGame.run`'s dispatch through `state_handlers`:
`MENU` starts playing on a click (regenerating the current level);
`PLAYING` runs `_handle_playing`; `PAUSED` resumes on escape;
`GAME_OVER` and `VICTORY` rebuild the whole session on a click
(`self.__init__(self.width, self.height)`). -/
def step (T : Trig) (o : Oracle) (inp : Input) (g : Game) : Game :=
  match g.state with
  | .MENU =>
      if inp.click then
        { g with state := .PLAYING,
                 bricks := generate_level o g.gk g.level, gk := g.gk + 1 }
      else g
  | .PLAYING => handle_playing T o inp g
  | .PAUSED => if inp.esc then { g with state := .PLAYING } else g
  | .GAME_OVER => if inp.click then Game.init o g.width g.height g.rk g.gk else g
  | .VICTORY => if inp.click then Game.init o g.width g.height g.rk g.gk else g

/-- The games reachable by the engine: a fresh session, or any tick
applied to a reachable game (with arbitrary per-tick trig model, oracle
and input). -/
inductive Reachable : Game → Prop where
  | init (o : Oracle) (width height : ℚ) (rk gk : ℕ) :
      Reachable (Game.init o width height rk gk)
  | step (T : Trig) (o : Oracle) (inp : Input) (g : Game) :
      Reachable g → Reachable (step T o inp g)

/-- Real-valued `Vector2D`, for the metric facts about the paddle bounce
(the actual `math.sin` / `math.cos` / `math.sqrt` live in `ℝ`). -/
structure RVec2 where
  x : ℝ
  y : ℝ

/-- `Vector2D.magnitude` over `ℝ`. -/
noncomputable def RVec2.magnitude (v : RVec2) : ℝ := Real.sqrt (v.x ^ 2 + v.y ^ 2)

/-- `Vector2D.__mul__` over `ℝ`. -/
def RVec2.smul (v : RVec2) (k : ℝ) : RVec2 := ⟨v.x * k, v.y * k⟩

/-- `Vector2D.reflect` over `ℝ`. -/
def RVec2.reflect (v n : RVec2) : RVec2 :=
  let dot := 2 * (v.x * n.x + v.y * n.y)
  ⟨v.x - dot * n.x, v.y - dot * n.y⟩

/-- `Vector2D.normalize` over `ℝ`. -/
noncomputable def RVec2.normalize (v : RVec2) : RVec2 :=
  let m := Real.sqrt (v.x ^ 2 + v.y ^ 2)
  if m > 0 then ⟨v.x / m, v.y / m⟩ else v

/-- `Paddle.get_collision_normal(ball_x)` over `ℝ` (`x` and `width` are
the paddle's position and width): offset from the paddle centre,
normalised by the half width, clamped to `[-1, 1]`, scaled to
`±60°`, and turned into the normal `(sin angle, -cos angle)`. -/
noncomputable def get_collision_normalR (x width ball_x : ℝ) : RVec2 :=
  let relative_pos := (ball_x - (x + width / 2)) / (width / 2)
  let relative_pos := max (-1) (min 1 relative_pos)
  let angle := relative_pos * Real.pi / 3
  ⟨Real.sin angle, -Real.cos angle⟩

/-- A concrete trig model for concrete evaluations (no claim about the
state machine depends on its values). -/
def T0 : Trig := ⟨fun _ => 0, fun _ => 0, fun _ => 0, 0⟩

/-- A concrete oracle: always launch left, keep every brick cell,
attach no power-up. -/
def o0 : Oracle := ⟨fun _ => true, fun _ _ _ => true, fun _ _ _ => none⟩

/-- A playing-state game on level 5 whose bricks are all cleared (one
ball in flight far from every boundary and from the paddle). -/
def gClear : Game :=
  { width := 800, height := 600, state := .PLAYING, score := 0, lives := 3,
    level := 5, paddle := Paddle.init 350 550,
    balls := [⟨⟨50, 50⟩, ⟨0, -300⟩, 8, [], 1⟩],
    bricks := [], powerups := [], rk := 0, gk := 0 }

/-- A playing-state game whose single ball is about to fall off the
bottom of the field. -/
def gLost : Game :=
  { width := 800, height := 600, state := .PLAYING, score := 0, lives := 3,
    level := 1, paddle := Paddle.init 350 550,
    balls := [⟨⟨400, 595⟩, ⟨0, 100⟩, 8, [], 1⟩],
    bricks := [Brick.init 10 60 5 none], powerups := [], rk := 0, gk := 0 }

/-! ## Claim C1 — ball boundary handling -/

/-- C1 counterexample: a ball at `(5, 5)` (radius 8) moving up-left with
velocity `(-10, -10)` satisfies the claim's premises (`dt = 1/10 > 0`,
pre-update `x - r = -3 ≤ 0`, a top-left corner hit), yet after
`Ball.update` its x-velocity is still `-10 < 0`: the boolean-keyed
handler dict lets the top-wall entry overwrite the left-wall entry, so
the wall conditions are *not* evaluated independently. -/
theorem C1_counterexample :
    (0 : ℚ) < 1/10
    ∧ (⟨⟨5, 5⟩, ⟨-10, -10⟩, 8, [], 1⟩ : Ball).pos.x
        - (⟨⟨5, 5⟩, ⟨-10, -10⟩, 8, [], 1⟩ : Ball).radius ≤ 0
    ∧ ((Ball.update ⟨⟨5, 5⟩, ⟨-10, -10⟩, 8, [], 1⟩ (1/10) 800 600).1).vel.x < 0 := by
  norm_num [Ball.update, Vec2.add, Vec2.smul]

/-- C1 (amended): `Ball.update` advances the position by
`velocity * dt * speed_multiplier` and then evaluates the three wall
conditions on the *post-update* position; because the handlers sit in a
dict keyed by the boolean conditions, at most one correction applies per
frame — that of the last true condition in source order (left, right,
top).  So: if the top-wall condition holds, `vel.y` becomes `|vel.y|`
(and `vel.x` is untouched even on a corner hit); otherwise if the
right-wall condition holds, `vel.x` becomes `-|vel.x|`; otherwise if the
left-wall condition holds, `vel.x` becomes `|vel.x|`; otherwise the
velocity is unchanged.  Magnitudes are preserved, only signs forced. -/
theorem C1_ball_update_walls (b : Ball) (dt width height : ℚ) :
    ((b.update dt width height).1).pos = b.pos.add (b.vel.smul (dt * b.speed_multiplier))
    ∧ ((b.pos.add (b.vel.smul (dt * b.speed_multiplier))).y - b.radius ≤ 0 →
        ((b.update dt width height).1).vel = ⟨b.vel.x, |b.vel.y|⟩
        ∧ 0 ≤ ((b.update dt width height).1).vel.y)
    ∧ (¬ ((b.pos.add (b.vel.smul (dt * b.speed_multiplier))).y - b.radius ≤ 0) →
        (b.pos.add (b.vel.smul (dt * b.speed_multiplier))).x + b.radius ≥ width →
        ((b.update dt width height).1).vel = ⟨-|b.vel.x|, b.vel.y⟩
        ∧ ((b.update dt width height).1).vel.x ≤ 0)
    ∧ (¬ ((b.pos.add (b.vel.smul (dt * b.speed_multiplier))).y - b.radius ≤ 0) →
        ¬ ((b.pos.add (b.vel.smul (dt * b.speed_multiplier))).x + b.radius ≥ width) →
        (b.pos.add (b.vel.smul (dt * b.speed_multiplier))).x - b.radius ≤ 0 →
        ((b.update dt width height).1).vel = ⟨|b.vel.x|, b.vel.y⟩
        ∧ 0 ≤ ((b.update dt width height).1).vel.x)
    ∧ (¬ ((b.pos.add (b.vel.smul (dt * b.speed_multiplier))).y - b.radius ≤ 0) →
        ¬ ((b.pos.add (b.vel.smul (dt * b.speed_multiplier))).x + b.radius ≥ width) →
        ¬ ((b.pos.add (b.vel.smul (dt * b.speed_multiplier))).x - b.radius ≤ 0) →
        ((b.update dt width height).1).vel = b.vel) := by
  refine ⟨rfl, ?_, ?_, ?_, ?_⟩
  all_goals
    intros
    simp only [Ball.update]
    split_ifs <;> first
      | exact ⟨rfl, abs_nonneg _⟩
      | exact ⟨rfl, neg_nonpos.2 (abs_nonneg _)⟩
      | rfl

/-- Witness for C1: the amended theorem applied to the corner-hit ball
of the counterexample; the top-wall branch fires and forces the
y-velocity nonnegative. -/
theorem C1_witness :
    0 ≤ ((Ball.update ⟨⟨5, 5⟩, ⟨-10, -10⟩, 8, [], 1⟩ (1/10) 800 600).1).vel.y :=
  ((C1_ball_update_walls ⟨⟨5, 5⟩, ⟨-10, -10⟩, 8, [], 1⟩ (1/10) 800 600).2.1
    (by norm_num [Vec2.add, Vec2.smul])).2

/-! ## Claim C2 — first-hit-only brick resolution -/

/-- C2: in a frame's collision resolution, the brick scan processes at
most one brick.  If no brick overlaps the ball's bounding box, nothing
changes.  Otherwise the *first* overlapping brick in list order is hit:
its health is decremented; exactly when the health reaches 0 it is
removed, its points are scored and its attached power-up spawns at its
centre; the scan exits early, leaving every other brick (including later
overlapping ones) untouched; and the bounce negates `vel.x` when
`|dx| > |dy|` (ball centre minus brick centre) and `vel.y` otherwise. -/
theorem C2_first_brick_only :
    (∀ (ballRect : PyRect) (b : Ball) (bricks : List Brick),
        (∀ br ∈ bricks, (mkRect br.x br.y br.width br.height).colliderect ballRect = false) →
        brickScan ballRect b bricks = (bricks, b, 0, []))
    ∧ (∀ (ballRect : PyRect) (b : Ball) (pre post : List Brick) (hit : Brick),
        (∀ br ∈ pre, (mkRect br.x br.y br.width br.height).colliderect ballRect = false) →
        (mkRect hit.x hit.y hit.width hit.height).colliderect ballRect = true →
        1 ≤ hit.health →
        brickScan ballRect b (pre ++ hit :: post) =
          (pre ++ (if hit.health = 1 then post
                   else { hit with health := hit.health - 1 } :: post),
           { b with vel :=
              if |b.pos.x - (hit.x + (⌊hit.width / 2⌋ : ℤ))|
                   > |b.pos.y - (hit.y + (⌊hit.height / 2⌋ : ℤ))|
              then ⟨-b.vel.x, b.vel.y⟩ else ⟨b.vel.x, -b.vel.y⟩ },
           (if hit.health = 1 then hit.points else 0),
           (if hit.health = 1 then
              (match hit.powerup with
               | some t => [PowerUp.init (hit.x + (⌊hit.width / 2⌋ : ℤ))
                   (hit.y + (⌊hit.height / 2⌋ : ℤ)) t]
               | none => [])
            else []))) := by
  constructor
  · intro ballRect b bricks h
    induction bricks with
    | nil => rfl
    | cons br rest ih =>
      have hbr := h br (List.mem_cons_self br rest)
      have hrest := fun x hx => h x (List.mem_cons_of_mem br hx)
      simp [brickScan, hbr, ih hrest]
  · intro ballRect b pre post hit hpre hhit hhealth
    induction pre with
    | nil =>
      by_cases hh : hit.health = 1
      · simp [brickScan, hhit, Brick.hit, hh]
      · have h2 : ¬ (hit.health - 1 ≤ 0) := by omega
        simp [brickScan, hhit, Brick.hit, h2, hh]
    | cons br rest ih =>
      have hbr := hpre br (List.mem_cons_self br rest)
      have hrest := fun x hx => hpre x (List.mem_cons_of_mem br hx)
      simp [brickScan, hbr, ih hrest]

/-- Witness for C2: a ball at `(8, 8)` overlapping a single health-1
brick at the origin destroys it, scores its 100 points, and bounces
horizontally (`|dx| = 29 > 4 = |dy|`). -/
theorem C2_witness :
    brickScan (mkRect 0 0 16 16) ⟨⟨8, 8⟩, ⟨3, 4⟩, 8, [], 1⟩ [Brick.init 0 0 1 none]
      = ([], ⟨⟨8, 8⟩, ⟨-3, 4⟩, 8, [], 1⟩, 100, []) := by
  have h := C2_first_brick_only.2 (mkRect 0 0 16 16) ⟨⟨8, 8⟩, ⟨3, 4⟩, 8, [], 1⟩
    [] [] (Brick.init 0 0 1 none) (by simp)
    (by norm_num [mkRect, pyTrunc, PyRect.colliderect, Brick.init])
    (by norm_num [Brick.init])
  norm_num [Brick.init] at h
  exact h

/-! ## Claim C3 — level-clear check -/

/-- C3 counterexample: on `gClear` (all bricks cleared, level `5`, which
does *not* exceed 5) the playing frame ends in `VICTORY` with the level
pushed to 6 and no bricks regenerated — the code increments the level
*before* comparing with 5, so clearing level 5 already wins, where the
claim demands regeneration of level 6. -/
theorem C3_counterexample :
    gClear.state = GameState.PLAYING ∧ gClear.bricks = [] ∧ ¬ (gClear.level > 5)
    ∧ (handle_playing T0 o0 ⟨400, false, false, 0⟩ gClear).state = GameState.VICTORY
    ∧ (handle_playing T0 o0 ⟨400, false, false, 0⟩ gClear).level = 6
    ∧ (handle_playing T0 o0 ⟨400, false, false, 0⟩ gClear).bricks = [] := by
  refine ⟨rfl, rfl, by norm_num [gClear], ?_, ?_, ?_⟩ <;>
    norm_num [handle_playing, gClear, ballsLoop, Ball.update, Vec2.add, Vec2.smul,
      lastTen, handle_collision, mkRect, pyTrunc, PyRect.colliderect, brickScan,
      handle_powerups, powerupsLoop, check_clear, Paddle.update, Paddle.init, T0, o0]

/-- C3 (amended): at the per-frame clear check, when all bricks are
cleared the level is incremented first; if the *incremented* level
exceeds 5 (i.e. the cleared level was ≥ 5) the state becomes Victory
with bricks and balls untouched; otherwise the bricks for the new level
are regenerated and a single fresh ball replaces all active balls.  With
bricks remaining, the check changes nothing. -/
theorem C3_clear_check (o : Oracle) (g : Game) :
    (g.bricks ≠ [] → check_clear o g = g)
    ∧ (g.bricks = [] →
        (check_clear o g).level = g.level + 1
        ∧ (g.level + 1 > 5 →
            (check_clear o g).state = .VICTORY
            ∧ (check_clear o g).bricks = g.bricks
            ∧ (check_clear o g).balls = g.balls)
        ∧ (¬ (g.level + 1 > 5) →
            (check_clear o g).state = g.state
            ∧ (check_clear o g).bricks = generate_level o g.gk (g.level + 1)
            ∧ (check_clear o g).balls
                = [Ball.init (⌊g.width / 2⌋ : ℤ) (g.height - 80) (o.dir g.rk)])) := by
  constructor
  · intro hb
    simp only [check_clear, if_neg hb]
  · intro hb
    simp only [check_clear, if_pos hb]
    by_cases hl : 5 < g.level + 1
    · simp only [if_pos hl]
      exact ⟨by simp, fun _ => ⟨by simp, by simp [hb], by simp⟩, fun h => absurd hl h⟩
    · simp only [if_neg hl]
      exact ⟨by simp, fun h => absurd h hl, fun _ => ⟨by simp, by simp, by simp⟩⟩

/-- Witness for C3: the amended theorem applied to `gClear` — with all
bricks cleared at level 5 the check yields Victory at level 6. -/
theorem C3_witness :
    (check_clear o0 gClear).state = GameState.VICTORY
    ∧ (check_clear o0 gClear).level = 6 := by
  have h := (C3_clear_check o0 gClear).2 rfl
  exact ⟨(h.2.1 (by norm_num [gClear])).1, h.1⟩

/-! ## Claim C5 — paddle normal is unit length, reflection preserves magnitude -/

/-- C5: `Paddle.get_collision_normal` returns exactly
`(sin θ, -cos θ)` with `θ = clamp(offset, -1, 1) * π/3`, a unit-length
vector; reflecting any velocity about any unit normal preserves the
magnitude; and the subsequent renormalise-and-rescale step
(`v.normalize() * v.magnitude`) is the identity, so the paddle bounce
changes only the direction, never the speed (before the paddle-velocity
english is added). -/
theorem C5_normal_unit_reflect_isometry :
    (∀ x width ball_x : ℝ,
        get_collision_normalR x width ball_x
          = ⟨Real.sin (max (-1) (min 1 ((ball_x - (x + width / 2)) / (width / 2)))
                * Real.pi / 3),
             -Real.cos (max (-1) (min 1 ((ball_x - (x + width / 2)) / (width / 2)))
                * Real.pi / 3)⟩
        ∧ (get_collision_normalR x width ball_x).magnitude = 1)
    ∧ (∀ v n : RVec2, n.magnitude = 1 → (v.reflect n).magnitude = v.magnitude)
    ∧ (∀ v : RVec2, (v.normalize).smul v.magnitude = v) := by
  refine ⟨fun x width ball_x => ⟨rfl, ?_⟩, fun v n hn => ?_, fun v => ?_⟩
  · simp only [get_collision_normalR, RVec2.magnitude, neg_sq]
    rw [Real.sin_sq_add_cos_sq, Real.sqrt_one]
  · have ha : (0 : ℝ) ≤ n.x ^ 2 + n.y ^ 2 := by positivity
    have h2 : n.x ^ 2 + n.y ^ 2 = 1 := by
      rw [← Real.sq_sqrt ha]
      rw [RVec2.magnitude] at hn
      rw [hn]; norm_num
    simp only [RVec2.reflect, RVec2.magnitude]
    congr 1
    linear_combination (2 * (v.x * n.x + v.y * n.y)) ^ 2 * h2
  · have ha : (0 : ℝ) ≤ v.x ^ 2 + v.y ^ 2 := by positivity
    simp only [RVec2.normalize, RVec2.magnitude, RVec2.smul]
    by_cases hm : Real.sqrt (v.x ^ 2 + v.y ^ 2) > 0
    · rw [if_pos hm]
      cases v with
      | mk vx vy =>
        simp only
        rw [div_mul_cancel₀ _ (ne_of_gt hm), div_mul_cancel₀ _ (ne_of_gt hm)]
    · rw [if_neg hm]
      have h0 : Real.sqrt (v.x ^ 2 + v.y ^ 2) = 0 :=
        le_antisymm (not_lt.1 hm) (Real.sqrt_nonneg _)
      have hsum : v.x ^ 2 + v.y ^ 2 = 0 := by
        rw [← Real.sq_sqrt ha, h0]; norm_num
      have hx : v.x = 0 := by nlinarith [sq_nonneg v.x, sq_nonneg v.y]
      have hy : v.y = 0 := by nlinarith [sq_nonneg v.x, sq_nonneg v.y]
      cases v with
      | mk vx vy =>
        simp only at hx hy
        simp [hx, hy]

/-- Witness for C5: reflecting `(3, 4)` about the unit normal `(0, -1)`
preserves the magnitude. -/
theorem C5_witness :
    (RVec2.reflect ⟨3, 4⟩ ⟨0, -1⟩).magnitude = (⟨3, 4⟩ : RVec2).magnitude :=
  C5_normal_unit_reflect_isometry.2.1 ⟨3, 4⟩ ⟨0, -1⟩
    (by norm_num [RVec2.magnitude, Real.sqrt_one])

/-! ## Claim C6 — power-up effect dispatcher -/

/-- C6: `_apply_powerup` performs exactly the mutation keyed by the
kind and nothing else, and in every case adds exactly 50 to the score:
Expand Paddle caps the width at 200; Multi-Ball appends two balls at the
first ball's position (a no-op on an empty ball set); Slow Ball sets
every ball's speed multiplier to 0.7; Sticky Paddle sets the flag;
Extra Life increments lives; Laser mutates nothing. -/
theorem C6_powerup_dispatch (o : Oracle) (g : Game) :
    (∀ t, (apply_powerup o t g).score = g.score + 50)
    ∧ apply_powerup o .EXPAND_PADDLE g
        = { g with paddle := { g.paddle with width := min (g.paddle.width + 30) 200 },
                   score := g.score + 50 }
    ∧ (g.balls = [] → apply_powerup o .MULTI_BALL g = { g with score := g.score + 50 })
    ∧ (∀ b0 rest, g.balls = b0 :: rest →
        apply_powerup o .MULTI_BALL g
          = { g with balls := g.balls ++
                              [Ball.init b0.pos.x b0.pos.y (o.dir g.rk),
                               Ball.init b0.pos.x b0.pos.y (o.dir (g.rk + 1))],
                     rk := g.rk + 2, score := g.score + 50 })
    ∧ apply_powerup o .SLOW_BALL g
        = { g with balls := g.balls.map fun b : Ball => { b with speed_multiplier := 0.7 },
                   score := g.score + 50 }
    ∧ apply_powerup o .LASER g = { g with score := g.score + 50 }
    ∧ apply_powerup o .STICKY_PADDLE g
        = { g with paddle := { g.paddle with sticky := true }, score := g.score + 50 }
    ∧ apply_powerup o .EXTRA_LIFE g
        = { g with lives := g.lives + 1, score := g.score + 50 } := by
  refine ⟨fun t => ?_, rfl, fun hb => ?_, fun b0 rest hb => ?_, rfl, rfl, rfl, rfl⟩
  · cases t <;> first
      | rfl
      | (rcases hb : g.balls with _ | ⟨b0, rest⟩ <;> simp [apply_powerup, hb])
  · simp [apply_powerup, hb]
  · simp [apply_powerup, hb]

/-- Witness for C6: collecting Multi-Ball on `gClear` (one ball at
`(50, 50)`) appends two fresh balls there, consuming two direction
draws, and adds 50 to the score. -/
theorem C6_witness :
    apply_powerup o0 PowerUpType.MULTI_BALL gClear
      = { gClear with
          balls := gClear.balls ++ [Ball.init 50 50 true, Ball.init 50 50 true],
          rk := 2, score := 50 } := by
  have h := (C6_powerup_dispatch o0 gClear).2.2.2.1 ⟨⟨50, 50⟩, ⟨0, -300⟩, 8, [], 1⟩ []
    (by simp [gClear])
  simpa [gClear, o0] using h

/-! ## Claim C7 — level generator -/

/-- C7: for every level index, `_generate_level` produces bricks only at
grid positions `x = col*78 + 10`, `y = row*30 + 60` with
`row < min(5 + level, 10)` and `col < 10`, each cell kept exactly when
its independent coin comes up (the `random.random() > 0.1` draw), and
every surviving brick's health equals `min(rows - row, 5)`, which lies
in `[1, 5]`. -/
theorem C7_level_generation (o : Oracle) (gk : ℕ) (level : ℤ) :
    (∀ br ∈ generate_level o gk level, ∃ row col : ℕ,
        row < (min (5 + level) 10).toNat ∧ col < 10
        ∧ o.keep gk row col = true
        ∧ br = Brick.init (col * 78 + 10) (row * 30 + 60)
            (min (min (5 + level) 10 - row) 5) (o.brickPu gk row col)
        ∧ br.x = col * 78 + 10 ∧ br.y = row * 30 + 60
        ∧ br.health = min (min (5 + level) 10 - row) 5
        ∧ 1 ≤ br.health ∧ br.health ≤ 5)
    ∧ (∀ row col : ℕ, row < (min (5 + level) 10).toNat → col < 10 →
        o.keep gk row col = true →
        Brick.init (col * 78 + 10) (row * 30 + 60)
            (min (min (5 + level) 10 - row) 5) (o.brickPu gk row col)
          ∈ generate_level o gk level) := by
  constructor
  · intro br hbr
    simp only [generate_level, List.mem_flatMap, List.mem_filterMap, List.mem_range] at hbr
    obtain ⟨row, hrow, col, hcol, hkeep⟩ := hbr
    by_cases hk : o.keep gk row col = true
    · rw [if_pos hk] at hkeep
      have hbr' := (Option.some_injective _ hkeep).symm
      have hrowZ : (row : ℤ) < min (5 + level) 10 := by omega
      refine ⟨row, col, hrow, hcol, hk, hbr', ?_, ?_, ?_, ?_, ?_⟩ <;>
        simp [hbr', Brick.init] <;> omega
    · rw [if_neg hk] at hkeep
      exact absurd hkeep (Option.noConfusion)
  · intro row col hrow hcol hk
    simp only [generate_level, List.mem_flatMap, List.mem_filterMap, List.mem_range]
    exact ⟨row, hrow, col, hcol, by rw [if_pos hk]⟩

/-- Witness for C7: on level 1 with the keep-everything oracle, the
top-left brick sits at `(10, 60)` with health `5` (clamped from
`rows - row = 6`). -/
theorem C7_witness : Brick.init 10 60 5 none ∈ generate_level o0 0 1 := by
  have h := (C7_level_generation o0 0 1).2 0 0 (by norm_num) (by norm_num) rfl
  norm_num [o0] at h
  exact h

/-! ## Claim C9 — no validation of malformed level configurations -/

/-- C9 counterexample: at level index `-5` the computed row count
`min(5 + level, 10)` is not positive, yet `_generate_level` signals no
error of any kind — it is total and silently yields the empty
(unplayable) brick layout. -/
theorem C9_counterexample :
    min (5 + (-5 : ℤ)) 10 ≤ 0 ∧ generate_level o0 0 (-5) = [] := by
  norm_num [generate_level]

/-- C9 (amended): `_generate_level` performs no validation at all: for
every level index whose computed row count `min(5 + level, 10)` is not
positive (exactly the indices `≤ -5`), it silently returns the empty
brick layout instead of signalling a configuration error. -/
theorem C9_no_validation (o : Oracle) (gk : ℕ) (level : ℤ) (h : level ≤ -5) :
    generate_level o gk level = [] := by
  have h0 : (min (5 + level) 10).toNat = 0 := by omega
  simp [generate_level, h0]

/-- Witness for C9: level index `-6` silently generates no bricks. -/
theorem C9_witness : generate_level o0 1 (-6) = [] :=
  C9_no_validation o0 1 (-6) (by norm_num)

/-! ## Structural lemmas about the power-up loop -/

/-- `_apply_powerup` never reads or writes the power-up list, so setting
that field commutes with it. -/
theorem apply_powerup_set_powerups (o : Oracle) (t : PowerUpType) (g : Game)
    (X : List PowerUp) :
    apply_powerup o t { g with powerups := X }
      = { apply_powerup o t g with powerups := X } := by
  cases t <;> first
    | rfl
    | (rcases hb : g.balls with _ | ⟨b0, rest⟩ <;> simp [apply_powerup, hb])

/-- The power-up loop threads the game state without ever reading its
`powerups` field: presetting that field just rides along. -/
theorem powerupsLoop_set_powerups (o : Oracle) (dt : ℚ) (pr : PyRect) (ht : ℚ)
    (l : List PowerUp) :
    ∀ (g : Game) (X : List PowerUp),
      powerupsLoop o dt pr ht { g with powerups := X } l
        = ({ (powerupsLoop o dt pr ht g l).1 with powerups := X },
           (powerupsLoop o dt pr ht g l).2) := by
  induction l with
  | nil => intro g X; rfl
  | cons p rest ih =>
    intro g X
    simp only [powerupsLoop]
    split_ifs with he hc
    · exact ih g X
    · rw [apply_powerup_set_powerups]
      exact ih _ X
    · rw [ih g X]

/-! ## Claim C10 — bottom exit beats collection -/

/-- C10: a power-up whose post-move `y` exceeds the field height is
removed without its effect and without the collection bonus — even if it
overlaps the paddle in that frame: running the loop on a list containing
such a power-up gives *exactly* the same game and survivor list as
running it with that power-up deleted, and likewise for the whole
`_handle_powerups` pass. -/
theorem C10_bottom_exit_precedence (o : Oracle) (dt : ℚ) :
    (∀ (paddleRect : PyRect) (height : ℚ) (g : Game) (l1 l2 : List PowerUp) (p : PowerUp),
        (p.update dt height).2 = true →
        powerupsLoop o dt paddleRect height g (l1 ++ p :: l2)
          = powerupsLoop o dt paddleRect height g (l1 ++ l2))
    ∧ (∀ (g : Game) (l1 l2 : List PowerUp) (p : PowerUp),
        (p.update dt g.height).2 = true →
        handle_powerups o dt { g with powerups := l1 ++ p :: l2 }
          = handle_powerups o dt { g with powerups := l1 ++ l2 }) := by
  have loopSkip : ∀ (pr : PyRect) (height : ℚ) (g : Game) (l1 l2 : List PowerUp)
      (p : PowerUp), (p.update dt height).2 = true →
      powerupsLoop o dt pr height g (l1 ++ p :: l2)
        = powerupsLoop o dt pr height g (l1 ++ l2) := by
    intro pr height g l1 l2 p hexit
    induction l1 generalizing g with
    | nil => simp [powerupsLoop, hexit]
    | cons q t ih =>
      simp only [List.cons_append, powerupsLoop]
      split_ifs <;> simp [ih]
  refine ⟨loopSkip, ?_⟩
  intro g l1 l2 p hexit
  have e1 := powerupsLoop_set_powerups o dt
    (mkRect g.paddle.x g.paddle.y g.paddle.width g.paddle.height) g.height
    (l1 ++ p :: l2) g (l1 ++ p :: l2)
  have e2 := powerupsLoop_set_powerups o dt
    (mkRect g.paddle.x g.paddle.y g.paddle.width g.paddle.height) g.height
    (l1 ++ l2) g (l1 ++ l2)
  have e3 := loopSkip (mkRect g.paddle.x g.paddle.y g.paddle.width g.paddle.height)
    g.height g l1 l2 p hexit
  simp only [handle_powerups]
  rw [e1, e2, e3]

/-- Witness for C10: a power-up at `y = 590` falling for `dt = 1/10`
exits an 600-high field (`y = 605 > 600`) and is skipped even though it
overlaps the paddle rectangle of `gClear`. -/
theorem C10_witness :
    handle_powerups o0 (1/10)
        { gClear with powerups := [PowerUp.init 400 590 PowerUpType.EXTRA_LIFE] }
      = handle_powerups o0 (1/10) { gClear with powerups := [] } := by
  have h := (C10_bottom_exit_precedence o0 (1/10)).2
    { gClear with powerups := [] } [] [] (PowerUp.init 400 590 PowerUpType.EXTRA_LIFE)
    (by norm_num [PowerUp.update, PowerUp.init, Vec2.add, Vec2.smul, gClear])
  simpa using h

/-! ## Structural lemmas about the playing frame -/

/-- `_handle_collision` only ever touches the bricks, the score, the
power-up list and the ball it was given: every other game field is
untouched. -/
theorem handle_collision_const (T : Trig) (g : Game) (b : Ball) :
    (handle_collision T g b).1.state = g.state
    ∧ (handle_collision T g b).1.lives = g.lives
    ∧ (handle_collision T g b).1.balls = g.balls
    ∧ (handle_collision T g b).1.level = g.level
    ∧ (handle_collision T g b).1.width = g.width
    ∧ (handle_collision T g b).1.height = g.height
    ∧ (handle_collision T g b).1.rk = g.rk
    ∧ (handle_collision T g b).1.gk = g.gk
    ∧ (handle_collision T g b).1.paddle = g.paddle :=
  ⟨rfl, rfl, rfl, rfl, rfl, rfl, rfl, rfl, rfl⟩

/-- `_apply_powerup` preserves the state and bricks, and never empties a
non-empty ball list. -/
theorem apply_powerup_pres (o : Oracle) (t : PowerUpType) (g : Game) :
    (apply_powerup o t g).state = g.state
    ∧ (apply_powerup o t g).bricks = g.bricks
    ∧ (g.balls ≠ [] → (apply_powerup o t g).balls ≠ []) := by
  cases t <;> first
    | exact ⟨rfl, rfl, fun h => h⟩
    | (refine ⟨rfl, rfl, fun h => ?_⟩
       simpa [apply_powerup, List.map_eq_nil_iff] using h)
    | (rcases hb : g.balls with _ | ⟨b0, rest⟩ <;> simp [apply_powerup, hb])

/-- The power-up loop preserves the state and bricks, and never empties
a non-empty ball list. -/
theorem powerupsLoop_pres (o : Oracle) (dt : ℚ) (pr : PyRect) (ht : ℚ)
    (l : List PowerUp) :
    ∀ g : Game,
      (powerupsLoop o dt pr ht g l).1.state = g.state
      ∧ (powerupsLoop o dt pr ht g l).1.bricks = g.bricks
      ∧ (g.balls ≠ [] → (powerupsLoop o dt pr ht g l).1.balls ≠ []) := by
  induction l with
  | nil => exact fun g => ⟨rfl, rfl, fun h => h⟩
  | cons p rest ih =>
    intro g
    simp only [powerupsLoop]
    split_ifs with he hc
    · exact ih g
    · obtain ⟨h1, h2, h3⟩ := ih (apply_powerup o (p.update dt ht).1.type g)
      obtain ⟨a1, a2, a3⟩ := apply_powerup_pres o (p.update dt ht).1.type g
      exact ⟨h1.trans a1, h2.trans a2, fun h => h3 (a3 h)⟩
    · exact ih g

/-- `_handle_powerups` preserves the state and bricks, and never empties
a non-empty ball list. -/
theorem handle_powerups_pres (o : Oracle) (dt : ℚ) (g : Game) :
    (handle_powerups o dt g).state = g.state
    ∧ (handle_powerups o dt g).bricks = g.bricks
    ∧ (g.balls ≠ [] → (handle_powerups o dt g).balls ≠ []) := by
  simp only [handle_powerups]
  exact powerupsLoop_pres o dt _ g.height g.powerups g

/-- Through the ball loop, the live ball list can only end empty if the
state was (or became) game-over. -/
theorem ballsLoop_nonempty (T : Trig) (o : Oracle) (dt : ℚ) (l : List Ball) :
    ∀ (g : Game) (acc : List Ball),
      (acc ≠ [] ∨ l ≠ [] ∨ g.state = .GAME_OVER) →
      (ballsLoop T o dt g acc l).balls ≠ []
      ∨ (ballsLoop T o dt g acc l).state = .GAME_OVER := by
  induction l with
  | nil =>
    intro g acc h
    rcases h with h | h | h
    · exact Or.inl h
    · exact absurd rfl h
    · exact Or.inr h
  | cons b rest ih =>
    intro g acc h
    simp only [ballsLoop]
    split_ifs with hlost hempty hlives
    · exact ih _ _ (Or.inl (by simp))
    · exact ih _ _ (Or.inr (Or.inr rfl))
    · refine ih _ _ ?_
      rcases acc with _ | ⟨a, acc'⟩
      · exact Or.inr (Or.inl (by simpa using hempty))
      · exact Or.inl (by simp)
    · refine ih _ _ (Or.inl (by simp))

/-- A frame in which every ball is lost: the loop removes them all, then
decrements `lives` exactly once and either spawns the single fresh ball
(when lives remain) or flags game-over. -/
theorem ballsLoop_all_lost (T : Trig) (o : Oracle) (dt : ℚ) (l : List Ball) :
    ∀ g : Game, l ≠ [] →
      (∀ b ∈ l, (b.update dt g.width g.height).2 = true) →
      ballsLoop T o dt g [] l =
        if g.lives - 1 > 0 then
          { g with lives := g.lives - 1, rk := g.rk + 1,
                   balls := [Ball.init (⌊g.width / 2⌋ : ℤ) (g.height - 80) (o.dir g.rk)] }
        else { g with lives := g.lives - 1, state := .GAME_OVER, balls := [] } := by
  induction l with
  | nil => exact fun g h _ => absurd rfl h
  | cons b rest ih =>
    intro g _ hall
    have hb := hall b (List.mem_cons_self b rest)
    by_cases hr : rest = []
    · subst hr
      simp only [ballsLoop, hb, if_true]
      rw [if_pos (show ([] : List Ball) ++ [] = [] by simp)]
    · simp only [ballsLoop, hb, if_true]
      rw [if_neg (show ¬ (([] : List Ball) ++ rest = []) by simpa using hr)]
      exact ih g hr (fun x hx => hall x (List.mem_cons_of_mem b hx))

/-! ## Claim C4 — ball-loss sub-protocol -/

/-- C4: when every ball of a frame is lost, the loop removes them all
from the active set, decrements `lives` by exactly 1, and then spawns
exactly one fresh ball at the default launch position when lives remain,
or flags `GAME_OVER` otherwise; and across a whole playing frame, a
frame that starts with balls and ends still in the Playing state also
ends with a non-empty ball set — the set of live balls is empty only
transiently. -/
theorem C4_ball_loss (T : Trig) (o : Oracle) (inp : Input) (g : Game) :
    (g.balls ≠ [] →
      (∀ b ∈ g.balls, (b.update inp.dt g.width g.height).2 = true) →
      (ballsLoop T o inp.dt g [] g.balls).lives = g.lives - 1
      ∧ (g.lives - 1 > 0 →
          (ballsLoop T o inp.dt g [] g.balls).balls
            = [Ball.init (⌊g.width / 2⌋ : ℤ) (g.height - 80) (o.dir g.rk)]
          ∧ (ballsLoop T o inp.dt g [] g.balls).state = g.state)
      ∧ (¬ (g.lives - 1 > 0) →
          (ballsLoop T o inp.dt g [] g.balls).balls = []
          ∧ (ballsLoop T o inp.dt g [] g.balls).state = .GAME_OVER))
    ∧ (g.state = .PLAYING → g.balls ≠ [] →
        (handle_playing T o inp g).state = .PLAYING →
        (handle_playing T o inp g).balls ≠ []) := by
  constructor
  · intro hne hall
    have h := ballsLoop_all_lost T o inp.dt g.balls g hne hall
    rw [h]
    by_cases hl : g.lives - 1 > 0
    · rw [if_pos hl]
      exact ⟨rfl, fun _ => ⟨rfl, rfl⟩, fun hc => absurd hl hc⟩
    · rw [if_neg hl]
      exact ⟨rfl, fun hc => absurd hc hl, fun _ => ⟨rfl, rfl⟩⟩
  · intro hstate hballs hplay
    set gA : Game := { g with paddle := g.paddle.update inp.dt inp.mouse_x g.width }
      with hgA
    have hunfold : handle_playing T o inp g
        = (if inp.esc then
            { check_clear o (handle_powerups o inp.dt
                (ballsLoop T o inp.dt gA [] gA.balls)) with state := .PAUSED }
           else check_clear o (handle_powerups o inp.dt
                (ballsLoop T o inp.dt gA [] gA.balls))) := rfl
    rw [hunfold] at hplay ⊢
    by_cases hesc : inp.esc = true
    · rw [if_pos hesc] at hplay
      exact absurd hplay (by simp)
    · rw [if_neg hesc] at hplay ⊢
      have hB := ballsLoop_nonempty T o inp.dt gA.balls gA [] (Or.inr (Or.inl hballs))
      set gB : Game := ballsLoop T o inp.dt gA [] gA.balls with hgB
      obtain ⟨hps, hpb, hpn⟩ := handle_powerups_pres o inp.dt gB
      set gC : Game := handle_powerups o inp.dt gB with hgC
      by_cases hbr : gC.bricks = []
      · simp only [check_clear, if_pos hbr] at hplay ⊢
        by_cases hlv : gC.level + 1 > 5
        · rw [if_pos hlv] at hplay
          exact absurd hplay (by simp)
        · rw [if_neg hlv] at hplay ⊢
          simp
      · simp only [check_clear, if_neg hbr] at hplay ⊢
        rcases hB with hBne | hBgo
        · exact hpn hBne
        · rw [hps, hBgo] at hplay
          exact absurd hplay (by simp)

/-- Witness for C4: in `gLost` (one ball at `(400, 595)` falling with
`dt = 1/10` on a 600-high field, 3 lives) the loop loses the ball,
drops `lives` to 2 and spawns the single fresh ball at `(400, 520)`. -/
theorem C4_witness :
    (ballsLoop T0 o0 ((⟨400, false, false, 1/10⟩ : Input).dt) gLost [] gLost.balls).lives
        = 2
    ∧ (ballsLoop T0 o0 ((⟨400, false, false, 1/10⟩ : Input).dt) gLost [] gLost.balls).balls
        = [Ball.init 400 520 true] := by
  have h := (C4_ball_loss T0 o0 ⟨400, false, false, 1/10⟩ gLost).1
    (by simp [gLost])
    (by
      intro b hb
      simp only [gLost, List.mem_singleton] at hb
      subst hb
      norm_num [Ball.update, Vec2.add, Vec2.smul, gLost])
  refine ⟨?_, ?_⟩
  · rw [h.1]
    norm_num [gLost]
  · have h2 := (h.2.1 (by norm_num [gLost])).1
    rw [h2]
    norm_num [gLost, o0]

/-! ## Claim C8 — brick-health invariant over reachable states -/

/-- Every brick produced by the level generator has
`1 ≤ health = max_health ≤ 5`. -/
theorem generate_level_WF (o : Oracle) (gk : ℕ) (level : ℤ) :
    ∀ br ∈ generate_level o gk level,
      1 ≤ br.health ∧ br.health ≤ br.max_health := by
  intro br hbr
  simp only [generate_level, List.mem_flatMap, List.mem_filterMap, List.mem_range] at hbr
  obtain ⟨row, hrow, col, hcol, hkeep⟩ := hbr
  by_cases hk : o.keep gk row col = true
  · rw [if_pos hk] at hkeep
    obtain rfl := Option.some_injective _ hkeep
    simp only [Brick.init]
    omega
  · rw [if_neg hk] at hkeep
    exact absurd hkeep (Option.noConfusion)

/-- The brick component of one `brickScan` step. -/
theorem brickScan_fst (rect : PyRect) (b : Ball) (brick : Brick)
    (rest : List Brick) :
    (brickScan rect b (brick :: rest)).1
      = if (mkRect brick.x brick.y brick.width brick.height).colliderect rect then
          (if brick.hit.2 then rest else brick.hit.1 :: rest)
        else brick :: (brickScan rect b rest).1 := by
  simp only [brickScan]
  split_ifs <;> rfl

/-- The brick scan preserves brick well-formedness: a surviving hit
brick keeps `1 ≤ health` (it would have been removed at `health ≤ 0`)
and health only decreases while `max_health` is constant. -/
theorem brickScan_WF (rect : PyRect) (b : Ball) (l : List Brick)
    (h : ∀ br ∈ l, 1 ≤ br.health ∧ br.health ≤ br.max_health) :
    ∀ br ∈ (brickScan rect b l).1,
      1 ≤ br.health ∧ br.health ≤ br.max_health := by
  induction l with
  | nil => simp [brickScan]
  | cons brick rest ih =>
    have hhead := h brick (List.mem_cons_self brick rest)
    have hrest := fun x hx => h x (List.mem_cons_of_mem brick hx)
    intro br hbr
    rw [brickScan_fst] at hbr
    split_ifs at hbr with hcol hdes
    · exact hrest br hbr
    · rcases List.mem_cons.mp hbr with rfl | hm
      · have hnd : ¬ (brick.health - 1 ≤ 0) := by
          simpa [Brick.hit] using hdes
        have h2 := hhead.2
        simp only [Brick.hit]
        exact ⟨by omega, by omega⟩
      · exact hrest br hm
    · rcases List.mem_cons.mp hbr with rfl | hm
      · exact hhead
      · exact ih hrest br hm

/-- The ball loop can only change the brick list through
`_handle_collision`, which preserves brick well-formedness. -/
theorem ballsLoop_WF (T : Trig) (o : Oracle) (dt : ℚ) (l : List Ball) :
    ∀ (g : Game) (acc : List Ball),
      (∀ br ∈ g.bricks, 1 ≤ br.health ∧ br.health ≤ br.max_health) →
      ∀ br ∈ (ballsLoop T o dt g acc l).bricks,
        1 ≤ br.health ∧ br.health ≤ br.max_health := by
  induction l with
  | nil => exact fun g acc h => h
  | cons b rest ih =>
    intro g acc h
    simp only [ballsLoop]
    split_ifs with hlost hempty hlives
    · exact ih _ _ h
    · exact ih _ _ h
    · exact ih _ _ h
    · exact ih _ _ (brickScan_WF _ _ _ h)

/-- The clear check either keeps the bricks or regenerates them. -/
theorem check_clear_WF (o : Oracle) (g : Game)
    (h : ∀ br ∈ g.bricks, 1 ≤ br.health ∧ br.health ≤ br.max_health) :
    ∀ br ∈ (check_clear o g).bricks,
      1 ≤ br.health ∧ br.health ≤ br.max_health := by
  simp only [check_clear]
  split_ifs with hb hl
  · exact h
  · exact generate_level_WF o g.gk (g.level + 1)
  · exact h

/-- One whole playing frame preserves brick well-formedness. -/
theorem handle_playing_WF (T : Trig) (o : Oracle) (inp : Input) (g : Game)
    (h : ∀ br ∈ g.bricks, 1 ≤ br.health ∧ br.health ≤ br.max_health) :
    ∀ br ∈ (handle_playing T o inp g).bricks,
      1 ≤ br.health ∧ br.health ≤ br.max_health := by
  set gA : Game := { g with paddle := g.paddle.update inp.dt inp.mouse_x g.width }
    with hgA
  set gB : Game := ballsLoop T o inp.dt gA [] gA.balls with hgB
  set gC : Game := handle_powerups o inp.dt gB with hgC
  have hunfold : handle_playing T o inp g
      = (if inp.esc then { check_clear o gC with state := .PAUSED }
         else check_clear o gC) := rfl
  rw [hunfold]
  have hB : ∀ br ∈ gB.bricks, 1 ≤ br.health ∧ br.health ≤ br.max_health :=
    ballsLoop_WF T o inp.dt gA.balls gA [] h
  have hCeq : gC.bricks = gB.bricks := (handle_powerups_pres o inp.dt gB).2.1
  have hC : ∀ br ∈ gC.bricks, 1 ≤ br.health ∧ br.health ≤ br.max_health :=
    fun br hbr => hB br (hCeq ▸ hbr)
  have hD := check_clear_WF o gC hC
  by_cases hesc : inp.esc = true
  · rw [if_pos hesc]
    exact hD
  · rw [if_neg hesc]
    exact hD

/-- Every engine tick preserves brick well-formedness. -/
theorem step_WF (T : Trig) (o : Oracle) (inp : Input) (g : Game)
    (h : ∀ br ∈ g.bricks, 1 ≤ br.health ∧ br.health ≤ br.max_health) :
    ∀ br ∈ (step T o inp g).bricks,
      1 ≤ br.health ∧ br.health ≤ br.max_health := by
  cases hs : g.state <;> simp only [step, hs]
  · split_ifs
    · exact generate_level_WF o g.gk g.level
    · exact h
  · exact handle_playing_WF T o inp g h
  · split_ifs
    · exact h
    · exact h
  · split_ifs
    · exact generate_level_WF o g.gk 1
    · exact h
  · split_ifs
    · exact generate_level_WF o g.gk 1
    · exact h

/-- Brick well-formedness holds in every reachable game state. -/
theorem reachable_WF (g : Game) (hg : Reachable g) :
    ∀ br ∈ g.bricks, 1 ≤ br.health ∧ br.health ≤ br.max_health := by
  induction hg with
  | init o w h rk gk => exact generate_level_WF o gk 1
  | step T o inp g hg ih => exact step_WF T o inp g ih

/-- C8: in every reachable game state, every active brick satisfies
`0 ≤ health ≤ max_health` (indeed `1 ≤ health`): the only operation that
lowers health is `hit()`, applied to at most one brick per ball per
frame, and a brick whose health reaches 0 is removed in the same
resolution step. -/
theorem C8_brick_health_invariant (g : Game) (hg : Reachable g) :
    ∀ br ∈ g.bricks, 0 ≤ br.health ∧ br.health ≤ br.max_health :=
  fun br hbr =>
    ⟨le_trans (by norm_num) (reachable_WF g hg br hbr).1,
     (reachable_WF g hg br hbr).2⟩

/-- Witness for C8: the top-left brick of a fresh session generated by
the keep-everything oracle satisfies the health bounds. -/
theorem C8_witness :
    0 ≤ (Brick.init 10 60 5 none).health
    ∧ (Brick.init 10 60 5 none).health ≤ (Brick.init 10 60 5 none).max_health :=
  C8_brick_health_invariant (Game.init o0 800 600 0 0) (Reachable.init o0 800 600 0 0)
    (Brick.init 10 60 5 none)
    (by
      simp only [Game.init, generate_level, List.mem_flatMap, List.mem_filterMap,
        List.mem_range, o0]
      exact ⟨0, by norm_num, 0, by norm_num, by norm_num [Brick.init]⟩)

end Arkanoid
